import Mathlib

/-!
Shallow embedding of the robosim-studio backend (Flask app `app.py`,
`simulation_runner.py`) and proofs about its session controller.

The backend keeps one global `simulation_runner` slot (an `Option` of a
runner), three HTTP endpoints (`start_simulation`, `pause_simulation`,
`stop_simulation`) and a generator `SimulationRunner.run` that drives the
step loop and yields frame/completed events, which `generate_frames`
translates into SSE stream events.

Concurrency model: the runner's `paused`/`stopped` flags are read by the
loop once per iteration; a run of the loop is therefore modelled against a
schedule `List Flags`, one observation of the two flags per loop iteration.
-/

namespace RoboSim

/-- One per-iteration observation of `SimulationRunner.paused` /
`SimulationRunner.stopped` as read by the `run` loop. -/
structure Flags where
  paused : Bool
  stopped : Bool
deriving DecidableEq

/-- Embeds the `SimulationRunner` object of `simulation_runner.py`:
an identity (to distinguish distinct constructions) and the two
control flags set in `__init__`. -/
structure SimulationRunner where
  rid : Nat
  paused : Bool
  stopped : Bool
deriving DecidableEq

/-- Embeds `SimulationRunner.__init__`: both flags start `False`. -/
def SimulationRunner.mk0 (rid : Nat) : SimulationRunner :=
  { rid := rid, paused := false, stopped := false }

/-- Embeds `SimulationRunner.set_paused`. -/
def SimulationRunner.set_paused (r : SimulationRunner) (p : Bool) : SimulationRunner :=
  { r with paused := p }

/-- Embeds `SimulationRunner.stop`: sets `stopped := True`. -/
def SimulationRunner.stop (r : SimulationRunner) : SimulationRunner :=
  { r with stopped := true }

/-- The flag observation the `run` loop would make of a runner now. -/
def SimulationRunner.flags (r : SimulationRunner) : Flags :=
  { paused := r.paused, stopped := r.stopped }

/-- Events yielded by the `SimulationRunner.run` generator: a rendered
frame for a step index (the figure's text carries the step), or the
`{'status': 'completed'}` dict. -/
inductive RunEvent where
  | frame (step : Nat)
  | completed
deriving DecidableEq

/-- Embeds the body of `SimulationRunner.run`, one schedule entry per
iteration of the `while` loop:

    step = 0; max_steps = 1000
    while step < max_steps and not self.stopped:
        if self.paused: time.sleep(0.1); continue
        yield frame(step)
        step += 1
        if step >= 100: yield completed; break

An exhausted schedule cuts observation of the loop short (yields nothing
further). -/
def runAux : List Flags → Nat → List RunEvent
  | [], _ => []
  | f :: rest, step =>
    if step < 1000 ∧ f.stopped = false then
      if f.paused then
        runAux rest step
      else
        RunEvent.frame step ::
          (if step + 1 ≥ 100 then [RunEvent.completed] else runAux rest (step + 1))
    else []

/-- Embeds `SimulationRunner.run`: the loop starting from `step = 0`. -/
def SimulationRunner.run (sched : List Flags) : List RunEvent :=
  runAux sched 0

/-- One item produced while iterating `simulation_runner.run()` inside
`generate_frames`: either a run event, or an exception raised with a
message (caught by the `except` clause). -/
inductive StepOutcome where
  | ok (e : RunEvent)
  | raise (msg : String)
deriving DecidableEq

/-- An SSE event written to the response stream by `generate_frames`:
`data: {"frame": ...}` (tagged here with the step the figure renders),
`data: {"status": "completed"}`, or `data: {"error": ...}`. -/
inductive SSEEvent where
  | frameData (step : Nat)
  | completedStatus
  | errorEvent (msg : String)
deriving DecidableEq

/-- Embeds the `generate_frames` generator of `app.py`:

    try:
        for frame_data in simulation_runner.run():
            if frame_data['status'] == 'completed':
                yield {'status': 'completed'}; break
            else:
                yield {'frame': base64(...)}
    except Exception as e:
        yield {'error': str(e)}
-/
def generate_frames : List StepOutcome → List SSEEvent
  | [] => []
  | StepOutcome.raise msg :: _ => [SSEEvent.errorEvent msg]
  | StepOutcome.ok RunEvent.completed :: _ => [SSEEvent.completedStatus]
  | StepOutcome.ok (RunEvent.frame s) :: rest =>
      SSEEvent.frameData s :: generate_frames rest

/-- The SSE stream a session produces when the runner raises no exception
and its flags evolve along `sched`. -/
def streamOf (sched : List Flags) : List SSEEvent :=
  generate_frames ((SimulationRunner.run sched).map StepOutcome.ok)

/-- Whether an SSE event is a terminal marker of the stream (the code's
only terminal markers are `completed` and `error`; no `stopped` stream
event exists in `generate_frames`). -/
def isTerminalEvent : SSEEvent → Bool
  | SSEEvent.frameData _ => false
  | SSEEvent.completedStatus => true
  | SSEEvent.errorEvent _ => true

/-- A JSON response of the control endpoints: `jsonify({'status': ...})`
or `jsonify({'error': ...}), code`. -/
inductive ApiResult where
  | ok (status : String)
  | err (msg : String) (code : Nat)
deriving DecidableEq

/-- Embeds `start_simulation` of `app.py` acting on the global
`simulation_runner` slot: it unconditionally constructs a fresh
`SimulationRunner` and assigns it to the global, then opens the SSE
response (the `Bool` records that a stream was opened rather than an
error returned; the handler has no error path on the slot). -/
def start_simulation (slot : Option SimulationRunner) (newId : Nat) :
    Option SimulationRunner × Bool :=
  let _ := slot
  (some (SimulationRunner.mk0 newId), true)

/-- Embeds `pause_simulation` of `app.py`: `paused = data.get('paused', True)`;
if the slot holds a runner, `set_paused(paused)` and respond
`'paused'`/`'resumed'`; otherwise `{'error': 'No active simulation'}, 400`. -/
def pause_simulation (slot : Option SimulationRunner) (body : Option Bool) :
    Option SimulationRunner × ApiResult :=
  let p := body.getD true
  match slot with
  | some r =>
      (some (r.set_paused p), ApiResult.ok (if p then "paused" else "resumed"))
  | none => (none, ApiResult.err "No active simulation" 400)

/-- Embeds `stop_simulation` of `app.py`: if the slot holds a runner,
call `runner.stop()`, clear the slot, respond `'stopped'`; otherwise
`{'error': 'No active simulation'}, 400`. -/
def stop_simulation (slot : Option SimulationRunner) :
    Option SimulationRunner × ApiResult :=
  match slot with
  | some _ => (none, ApiResult.ok "stopped")
  | none => (none, ApiResult.err "No active simulation" 400)

/-- A control request arriving at the app. -/
inductive AppReq where
  | start (newId : Nat)
  | pause (body : Option Bool)
  | stopReq
deriving DecidableEq

/-- The effect of one request on the global `simulation_runner` slot. -/
def applyReq (slot : Option SimulationRunner) : AppReq → Option SimulationRunner
  | AppReq.start newId => (start_simulation slot newId).1
  | AppReq.pause body => (pause_simulation slot body).1
  | AppReq.stopReq => (stop_simulation slot).1

/-- A control call mutating a live runner object (`set_paused` or `stop`). -/
inductive ControlOp where
  | setPaused (b : Bool)
  | stopOp
deriving DecidableEq

/-- Apply one control call to a runner. -/
def applyOp (r : SimulationRunner) : ControlOp → SimulationRunner
  | ControlOp.setPaused b => r.set_paused b
  | ControlOp.stopOp => r.stop

/-- Apply a sequence of control calls to a runner, in order. -/
def applyOps (r : SimulationRunner) (ops : List ControlOp) : SimulationRunner :=
  ops.foldl applyOp r

/-- Step indices of the frame events in a run-event list. -/
def frameSteps : List RunEvent → List Nat
  | [] => []
  | RunEvent.frame s :: rest => s :: frameSteps rest
  | RunEvent.completed :: rest => frameSteps rest

/-- Step indices of the frame events in an SSE stream. -/
def sseSteps : List SSEEvent → List Nat
  | [] => []
  | SSEEvent.frameData s :: rest => s :: sseSteps rest
  | SSEEvent.completedStatus :: rest => sseSteps rest
  | SSEEvent.errorEvent _ :: rest => sseSteps rest

/-- Flag observation of an iteration on which the runner is neither
paused nor stopped. -/
def activeF : Flags := { paused := false, stopped := false }

/-- Flag observation of an iteration on which the runner is paused. -/
def pausedF : Flags := { paused := true, stopped := false }

/-- Flag observation of an iteration on which the runner is stopped. -/
def stoppedF : Flags := { paused := false, stopped := true }

/-! ### Basic unfolding lemmas for the run loop -/

lemma runAux_nil (step : Nat) : runAux [] step = [] := rfl

lemma runAux_cons (f : Flags) (rest : List Flags) (step : Nat) :
    runAux (f :: rest) step =
      if step < 1000 ∧ f.stopped = false then
        if f.paused then
          runAux rest step
        else
          RunEvent.frame step ::
            (if step + 1 ≥ 100 then [RunEvent.completed] else runAux rest (step + 1))
      else [] := rfl

lemma runAux_stopped_head (f : Flags) (rest : List Flags) (step : Nat)
    (h : f.stopped = true) : runAux (f :: rest) step = [] := by
  rw [runAux_cons]
  simp [h]

lemma runAux_of_ge (sched : List Flags) (step : Nat) (h : 1000 ≤ step) :
    runAux sched step = [] := by
  cases sched with
  | nil => rfl
  | cons f rest =>
      rw [runAux_cons]
      simp [Nat.not_lt.mpr h]

lemma runAux_all_stopped (sched : List Flags) (step : Nat)
    (h : ∀ f ∈ sched, f.stopped = true) : runAux sched step = [] := by
  cases sched with
  | nil => rfl
  | cons f rest => exact runAux_stopped_head f rest step (h f (by simp))

/-! ### Generate-frames unfolding lemmas -/

lemma gf_nil : generate_frames [] = [] := rfl

lemma gf_raise (msg : String) (rest : List StepOutcome) :
    generate_frames (StepOutcome.raise msg :: rest) = [SSEEvent.errorEvent msg] := rfl

lemma gf_completed (rest : List StepOutcome) :
    generate_frames (StepOutcome.ok RunEvent.completed :: rest) =
      [SSEEvent.completedStatus] := rfl

lemma gf_frame (s : Nat) (rest : List StepOutcome) :
    generate_frames (StepOutcome.ok (RunEvent.frame s) :: rest) =
      SSEEvent.frameData s :: generate_frames rest := rfl

lemma gf_ok_frames (steps : List Nat) (rest : List StepOutcome) :
    generate_frames ((steps.map RunEvent.frame).map StepOutcome.ok ++ rest) =
      steps.map SSEEvent.frameData ++ generate_frames rest := by
  induction steps with
  | nil => simp
  | cons a l ih =>
      rw [List.map_cons, List.map_cons, List.cons_append, gf_frame, ih, List.map_cons,
        List.cons_append]

/-! ### Control-flag lemmas -/

lemma applyOp_stopped (r : SimulationRunner) (op : ControlOp)
    (h : r.stopped = true) : (applyOp r op).stopped = true := by
  cases op with
  | setPaused b => simpa [applyOp, SimulationRunner.set_paused] using h
  | stopOp => simp [applyOp, SimulationRunner.stop]

lemma applyOps_stopped (ops : List ControlOp) (r : SimulationRunner)
    (h : r.stopped = true) : (applyOps r ops).stopped = true := by
  induction ops generalizing r with
  | nil => simpa [applyOps] using h
  | cons op rest ih =>
      have : applyOps r (op :: rest) = applyOps (applyOp r op) rest := rfl
      rw [this]
      exact ih (applyOp r op) (applyOp_stopped r op h)

/-! ### Structural lemmas about the step loop -/

@[simp] lemma activeF_paused : activeF.paused = false := rfl

@[simp] lemma activeF_stopped : activeF.stopped = false := rfl

@[simp] lemma pausedF_paused : pausedF.paused = true := rfl

@[simp] lemma pausedF_stopped : pausedF.stopped = false := rfl

@[simp] lemma stoppedF_paused : stoppedF.paused = false := rfl

@[simp] lemma stoppedF_stopped : stoppedF.stopped = true := rfl

lemma runAux_paused_append (m : Nat) (rest : List Flags) :
    ∀ step, runAux (List.replicate m pausedF ++ rest) step = runAux rest step := by
  induction m with
  | zero => intro step; simp
  | succ n ih =>
      intro step
      rw [List.replicate_succ, List.cons_append, runAux_cons]
      by_cases h : step < 1000
      · rw [if_pos (by simp [h]), if_pos pausedF_paused]
        exact ih step
      · rw [if_neg (by simp [h]), runAux_of_ge rest step (Nat.le_of_not_lt h)]

lemma runAux_append_congr (pre : List Flags) (A B : List Flags)
    (h : ∀ s, runAux A s = runAux B s) :
    ∀ step, runAux (pre ++ A) step = runAux (pre ++ B) step := by
  induction pre with
  | nil => intro step; simpa using h step
  | cons f rest ih =>
      intro step
      rw [List.cons_append, List.cons_append, runAux_cons, runAux_cons]
      by_cases h1 : step < 1000 ∧ f.stopped = false
      · rw [if_pos h1, if_pos h1]
        by_cases h2 : f.paused = true
        · rw [if_pos h2, if_pos h2]
          exact ih step
        · rw [if_neg h2, if_neg h2]
          by_cases h3 : step + 1 ≥ 100
          · rw [if_pos h3, if_pos h3]
          · rw [if_neg h3, if_neg h3, ih (step + 1)]
      · rw [if_neg h1, if_neg h1]

lemma runAux_active_append (k : Nat) (rest : List Flags) :
    ∀ step, step + k ≤ 99 →
      runAux (List.replicate k activeF ++ rest) step =
        (List.range' step k).map RunEvent.frame ++ runAux rest (step + k) := by
  induction k with
  | zero => intro step _; simp
  | succ n ih =>
      intro step h
      rw [List.replicate_succ, List.cons_append, runAux_cons]
      have h1 : step < 1000 := by omega
      have h2 : ¬ step + 1 ≥ 100 := by omega
      rw [if_pos (by simp [h1]), if_neg (by simp), if_neg h2]
      rw [ih (step + 1) (by omega), List.range'_succ, List.map_cons, List.cons_append]
      have : step + 1 + n = step + (n + 1) := by omega
      rw [this]

lemma runAux_active_complete (n : Nat) :
    ∀ step, step < 100 → 100 - step ≤ n →
      runAux (List.replicate n activeF) step =
        (List.range' step (100 - step)).map RunEvent.frame ++ [RunEvent.completed] := by
  induction n with
  | zero => intro step h1 h2; omega
  | succ m ih =>
      intro step h1 h2
      rw [List.replicate_succ, runAux_cons]
      have hlt : step < 1000 := by omega
      by_cases hcap : step + 1 ≥ 100
      · have hs : step = 99 := by omega
        subst hs
        rw [if_pos (by simp [hlt]), if_neg (by simp), if_pos hcap]
        norm_num [List.range'_succ]
      · rw [if_pos (by simp [hlt]), if_neg (by simp), if_neg hcap]
        rw [ih (step + 1) (by omega) (by omega)]
        have hsplit : 100 - step = (100 - (step + 1)) + 1 := by omega
        rw [hsplit, List.range'_succ, List.map_cons, List.cons_append]

/-! ### Derived facts about whole runs and streams -/

lemma run_replicate_active (n : Nat) (hn : 100 ≤ n) :
    SimulationRunner.run (List.replicate n activeF) =
      (List.range 100).map RunEvent.frame ++ [RunEvent.completed] := by
  have h := runAux_active_complete n 0 (by norm_num) (by omega)
  rw [SimulationRunner.run, h, List.range_eq_range']

lemma stream_replicate_active (n : Nat) (hn : 100 ≤ n) :
    streamOf (List.replicate n activeF) =
      (List.range 100).map SSEEvent.frameData ++ [SSEEvent.completedStatus] := by
  rw [streamOf, run_replicate_active n hn, List.map_append]
  rw [gf_ok_frames]
  norm_num [gf_completed]

lemma stream_active_then_stopped (k : Nat) (tail : List Flags) (hk : k ≤ 99)
    (ht : ∀ f ∈ tail, f.stopped = true) :
    streamOf (List.replicate k activeF ++ tail) =
      (List.range k).map SSEEvent.frameData := by
  have hrun : runAux (List.replicate k activeF ++ tail) 0 =
      (List.range' 0 k).map RunEvent.frame ++ runAux tail (0 + k) :=
    runAux_active_append k tail 0 (by omega)
  rw [streamOf, SimulationRunner.run, hrun, runAux_all_stopped tail (0 + k) ht,
    List.append_nil, ← List.range_eq_range']
  have := gf_ok_frames (List.range k) []
  rw [List.append_nil] at this
  rw [this, gf_nil, List.append_nil]

lemma sseSteps_map_frameData (l : List Nat) :
    sseSteps (l.map SSEEvent.frameData) = l := by
  induction l with
  | nil => rfl
  | cons a t ih => simp [sseSteps, ih]

lemma sseSteps_runAux (sched : List Flags) :
    ∀ step, ∃ k, sseSteps (generate_frames ((runAux sched step).map StepOutcome.ok)) =
      List.range' step k := by
  induction sched with
  | nil => intro step; exact ⟨0, rfl⟩
  | cons f rest ih =>
      intro step
      rw [runAux_cons]
      by_cases h1 : step < 1000 ∧ f.stopped = false
      · rw [if_pos h1]
        by_cases h2 : f.paused = true
        · rw [if_pos h2]; exact ih step
        · rw [if_neg h2]
          by_cases h3 : step + 1 ≥ 100
          · refine ⟨1, ?_⟩
            rw [if_pos h3]
            simp [gf_frame, gf_completed, sseSteps, List.range'_succ]
          · obtain ⟨k, hk⟩ := ih (step + 1)
            refine ⟨k + 1, ?_⟩
            rw [if_neg h3, List.map_cons, gf_frame]
            simp only [sseSteps, hk, List.range'_succ]
      · rw [if_neg h1]; exact ⟨0, rfl⟩

/-! ### Claims -/

/-- Claim C1, counterexample: a start request arriving while the slot holds a
non-terminal (freshly started, running) session does not fail with
AlreadyRunning — it opens a stream (`true`) and silently replaces the slot
with a different, fresh runner. -/
theorem C1_counterexample :
    (start_simulation (some (SimulationRunner.mk0 0)) 1).2 = true ∧
    (start_simulation (some (SimulationRunner.mk0 0)) 1).1 =
      some (SimulationRunner.mk0 1) ∧
    SimulationRunner.mk0 1 ≠ SimulationRunner.mk0 0 := by
  refine ⟨rfl, rfl, ?_⟩
  decide

/-- Claim C1, amended: `start_simulation` never fails, whatever the slot
holds; it unconditionally replaces the slot with a fresh runner (the
previous session is orphaned, not stopped) and opens the stream. -/
theorem C1_start_replaces (slot : Option SimulationRunner) (newId : Nat) :
    (start_simulation slot newId).2 = true ∧
    (start_simulation slot newId).1 = some (SimulationRunner.mk0 newId) :=
  ⟨rfl, rfl⟩

/-- Claim C2, counterexample: a session stopped after one frame produces the
stream `[frame 0]` — its last event is a frame, not any terminal marker; the
code emits no `stopped` stream event at all. -/
theorem C2_counterexample :
    streamOf [activeF, stoppedF] = [SSEEvent.frameData 0] ∧
    (streamOf [activeF, stoppedF]).getLast? = some (SSEEvent.frameData 0) ∧
    isTerminalEvent (SSEEvent.frameData 0) = false := by
  refine ⟨?_, ?_, rfl⟩ <;> rfl

/-- Claim C2, amended: start followed by a stop (observed after `k ≤ 99`
active iterations) yields zero-or-more frame events and then the stream
simply ends — no terminal event of any kind is emitted; the `stopped`
acknowledgement appears only in the stop endpoint's JSON response. -/
theorem C2_stop_stream (k : Nat) (tail : List Flags) (r : SimulationRunner)
    (hk : k ≤ 99) (ht : ∀ f ∈ tail, f.stopped = true) :
    streamOf (List.replicate k activeF ++ tail) =
      (List.range k).map SSEEvent.frameData ∧
    (∀ e ∈ streamOf (List.replicate k activeF ++ tail),
      isTerminalEvent e = false) ∧
    (stop_simulation (some r)).2 = ApiResult.ok "stopped" := by
  have h := stream_active_then_stopped k tail hk ht
  refine ⟨h, ?_, rfl⟩
  intro e he
  rw [h] at he
  obtain ⟨s, _, rfl⟩ := List.mem_map.mp he
  rfl

/-- Witness for C2_stop_stream at `k = 3`, `tail = [stoppedF]`. -/
theorem C2_stop_stream_witness :
    (3 ≤ 99 ∧ ∀ f ∈ [stoppedF], f.stopped = true) ∧
    (streamOf (List.replicate 3 activeF ++ [stoppedF]) =
      (List.range 3).map SSEEvent.frameData ∧
    (∀ e ∈ streamOf (List.replicate 3 activeF ++ [stoppedF]),
      isTerminalEvent e = false) ∧
    (stop_simulation (some (SimulationRunner.mk0 0))).2 = ApiResult.ok "stopped") :=
  ⟨⟨by norm_num, by simp⟩,
    C2_stop_stream 3 [stoppedF] (SimulationRunner.mk0 0) (by norm_num) (by simp)⟩

/-- Claim C3, confirmed: a never-paused, never-stopped session hits the 100
step demo ceiling and its stream is exactly the 100 frame events for steps
0..99 followed by one `completed` event — 101 events total, in order. -/
theorem C3_ceiling_stream (n : Nat) (hn : 100 ≤ n) :
    streamOf (List.replicate n activeF) =
      (List.range 100).map SSEEvent.frameData ++ [SSEEvent.completedStatus] ∧
    (streamOf (List.replicate n activeF)).length = 101 := by
  have h := stream_replicate_active n hn
  refine ⟨h, ?_⟩
  rw [h]
  simp

/-- Witness for C3_ceiling_stream at `n = 100`. -/
theorem C3_ceiling_stream_witness :
    100 ≤ 100 ∧
    (streamOf (List.replicate 100 activeF) =
      (List.range 100).map SSEEvent.frameData ++ [SSEEvent.completedStatus] ∧
    (streamOf (List.replicate 100 activeF)).length = 101) :=
  ⟨by norm_num, C3_ceiling_stream 100 (by norm_num)⟩

/-- Claim C4, confirmed: in every stream a session produces, the step
indices of the frame events form `List.range k` for some `k` — they start
at 0 and are strictly increasing with no gaps and no duplicates, so the
n-th frame event (1-based) carries step index n-1. -/
theorem C4_step_indices (sched : List Flags) :
    ∃ k, sseSteps (streamOf sched) = List.range k := by
  obtain ⟨k, hk⟩ := sseSteps_runAux sched 0
  refine ⟨k, ?_⟩
  rw [streamOf, SimulationRunner.run, hk, ← List.range_eq_range']

/-- Claim C5, counterexample: a session that has reached the terminal
`Completed` phase (its stream's last event is `completed`) leaves the slot
occupied, and a stop request then succeeds with status `stopped` instead of
failing with NoActiveSession. -/
theorem C5_counterexample :
    (streamOf (List.replicate 100 activeF)).getLast? =
      some SSEEvent.completedStatus ∧
    stop_simulation (some (SimulationRunner.mk0 0)) =
      (none, ApiResult.ok "stopped") := by
  refine ⟨?_, rfl⟩
  rw [stream_replicate_active 100 (by norm_num)]
  simp

/-- Claim C5, amended: pause and stop fail with `No active simulation`
exactly when the slot is empty — before any start, or after an explicit
stop cleared it; whenever the slot holds a runner (even one whose run has
already completed or failed) stop and pause succeed. -/
theorem C5_no_active_only_when_slot_empty (r : SimulationRunner) (b : Option Bool) :
    stop_simulation none = (none, ApiResult.err "No active simulation" 400) ∧
    pause_simulation none b = (none, ApiResult.err "No active simulation" 400) ∧
    (stop_simulation (some r)).2 = ApiResult.ok "stopped" ∧
    (pause_simulation (some r) (some true)).2 = ApiResult.ok "paused" :=
  ⟨rfl, rfl, rfl, rfl⟩

/-- Claim C6, counterexample: after a start the slot holds the runner, and a
session that ends by completion (stream's last event is `completed`) does
not clear it — no code path but the explicit stop request empties the slot,
so the handle is retained past the terminal phase. -/
theorem C6_counterexample :
    applyReq none (AppReq.start 0) = some (SimulationRunner.mk0 0) ∧
    (streamOf (List.replicate 100 activeF)).getLast? =
      some SSEEvent.completedStatus ∧
    some (SimulationRunner.mk0 0) ≠ (none : Option SimulationRunner) := by
  refine ⟨rfl, ?_, by simp⟩
  rw [stream_replicate_active 100 (by norm_num)]
  simp

/-- Claim C6, amended: the registry slot is cleared by the explicit stop
request and by nothing else — pause leaves it occupied and start refills
it; the completion and failure paths of the stream never touch the slot. -/
theorem C6_slot_cleared_only_by_stop (r : SimulationRunner) (req : AppReq) :
    applyReq (some r) req = none ↔ req = AppReq.stopReq := by
  cases req with
  | start newId => simp [applyReq, start_simulation]
  | pause body => simp [applyReq, pause_simulation]
  | stopReq => simp [applyReq, stop_simulation]

/-- Claim C7, confirmed: a block of paused iterations inserted anywhere in a
session's schedule changes nothing — the run (and hence the stream) equals
the run without the paused block, so pause/resume emits no terminal event
by itself, the step counter is unchanged while paused, and after resume no
step is re-emitted and none is skipped; a purely paused schedule yields no
events at all. -/
theorem C7_pause_resume (pre : List Flags) (m : Nat) (rest : List Flags) :
    SimulationRunner.run (pre ++ List.replicate m pausedF ++ rest) =
      SimulationRunner.run (pre ++ rest) ∧
    streamOf (pre ++ List.replicate m pausedF ++ rest) = streamOf (pre ++ rest) ∧
    SimulationRunner.run (List.replicate m pausedF) = [] := by
  have hrun : SimulationRunner.run (pre ++ List.replicate m pausedF ++ rest) =
      SimulationRunner.run (pre ++ rest) := by
    rw [SimulationRunner.run, SimulationRunner.run, List.append_assoc]
    exact runAux_append_congr pre (List.replicate m pausedF ++ rest) rest
      (fun s => runAux_paused_append m rest s) 0
  refine ⟨hrun, by rw [streamOf, streamOf, hrun], ?_⟩
  have h := runAux_paused_append m [] 0
  rw [List.append_nil] at h
  rw [SimulationRunner.run, h, runAux_nil]

/-- Claim C8, confirmed: if iterating the producer raises an exception after
any prefix of frames, `generate_frames` catches it and the stream is the
frame prefix followed by exactly one `error` event carrying the message, and
that `error` event is the last event of the stream — the exception never
escapes the generator. -/
theorem C8_engine_error_captured (steps : List Nat) (msg : String)
    (rest : List StepOutcome) :
    generate_frames ((steps.map RunEvent.frame).map StepOutcome.ok ++
        StepOutcome.raise msg :: rest) =
      steps.map SSEEvent.frameData ++ [SSEEvent.errorEvent msg] ∧
    (generate_frames ((steps.map RunEvent.frame).map StepOutcome.ok ++
        StepOutcome.raise msg :: rest)).getLast? =
      some (SSEEvent.errorEvent msg) := by
  have h := gf_ok_frames steps (StepOutcome.raise msg :: rest)
  rw [gf_raise] at h
  refine ⟨h, ?_⟩
  rw [h]
  simp

/-- Claim C9, confirmed: once `stop()` has been called on a runner, no
subsequent sequence of `set_paused`/`stop` calls ever clears the `stopped`
flag, and a run loop observing any such post-stop runner states yields no
events at all — a stopped session can never be un-stopped. -/
theorem C9_stop_is_permanent (r : SimulationRunner) (ops : List ControlOp)
    (opss : List (List ControlOp)) (step : Nat) :
    (applyOps r.stop ops).stopped = true ∧
    runAux (opss.map fun o => (applyOps r.stop o).flags) step = [] := by
  have hstop : r.stop.stopped = true := rfl
  refine ⟨applyOps_stopped ops r.stop hstop, ?_⟩
  apply runAux_all_stopped
  intro f hf
  obtain ⟨o, _, rfl⟩ := List.mem_map.mp hf
  simpa [SimulationRunner.flags] using applyOps_stopped o r.stop hstop

/-- Claim C10, confirmed: a pause request whose body omits the `paused`
field behaves exactly like `paused: true` while a runner is active — the
runner's paused flag is set and the response reports status `paused`. -/
theorem C10_pause_default_true (r : SimulationRunner) :
    pause_simulation (some r) none = pause_simulation (some r) (some true) ∧
    (pause_simulation (some r) none).2 = ApiResult.ok "paused" ∧
    (pause_simulation (some r) none).1 = some (r.set_paused true) :=
  ⟨rfl, rfl, rfl⟩

end RoboSim
